import Mathlib

/-!
Verification of the DC document-number sequence allocator of the
HYD-Eway-Bill-Automation repository.

Shallow embedding of:
* `src/core/dc_sequence_manager.py` — `LocalSequenceGenerator`,
  `DCSequenceManager` (backend probing, key scheme, `generate_dc_number`,
  `reserve_dc_number`, `confirm_dc_number`, `get_current_sequence`);
* `src/core/google_sheets_sequence_generator.py` —
  `GoogleSheetsSequenceGenerator` (row store, retrying `get_next_sequence`,
  `get_current_sequence_value`);
* `src/core/github_sequence_generator.py` — `GitHubSequenceGenerator`
  (JSON file store with commit-conditioned writes, retrying
  `get_next_sequence`, `get_current_sequence_value`).

Python dictionaries are modelled as association lists (first binding wins,
update-in-place or append, matching CPython dict semantics for the
operations used).  Timestamps (`last_updated`, history timestamps, the
sheet's `Last Updated` column) are not modelled: no claim depends on them.
Remote I/O failures and write rejections are modelled by an explicit
outcome schedule carried in the store state: each write attempt consumes
one schedule entry; `none` means the write is accepted, `some ext` means
the write is rejected and the store is left holding `ext`, the content
installed by the conflicting writer that caused the rejection.  An empty
schedule means every write is accepted (the single-threaded, no-fault
case).
-/

/-- Association-list lookup: Python `d.get(k)` / `k in d`. -/
def lookupA {α : Type} : List (String × α) → String → Option α
  | [], _ => none
  | (k', v) :: rest, k => if k' = k then some v else lookupA rest k

/-- Association-list store: Python `d[k] = v` (update in place if the key
is present, append otherwise). -/
def setA {α : Type} : List (String × α) → String → α → List (String × α)
  | [], k, v => [(k, v)]
  | (k', v') :: rest, k, v =>
    if k' = k then (k, v) :: rest else (k', v') :: setA rest k v

/-- ASCII lower-casing of one character, as Python `str.lower` acts on the
ASCII code points appearing in this code base. -/
def lowerChar (c : Char) : Char :=
  if 'A' ≤ c ∧ c ≤ 'Z' then Char.ofNat (c.toNat + 32) else c

/-- ASCII upper-casing of one character (Python `str.upper`). -/
def upperChar (c : Char) : Char :=
  if 'a' ≤ c ∧ c ≤ 'z' then Char.ofNat (c.toNat - 32) else c

/-- Python `s.lower()` for the ASCII strings used by the allocator. -/
def lowerString (s : String) : String :=
  String.mk (s.toList.map lowerChar)

/-- Python `s.upper()` for the ASCII strings used by the allocator. -/
def upperString (s : String) : String :=
  String.mk (s.toList.map upperChar)

/-- Python `s.split(sep)` for a one-character separator, on the character
list: `"a_b".split("_") == ["a","b"]`, `"".split("_") == [""]`. -/
def splitCharList (c : Char) : List Char → List (List Char)
  | [] => [[]]
  | x :: xs =>
    if x = c then [] :: splitCharList c xs
    else
      match splitCharList c xs with
      | [] => [[x]]
      | g :: gs => (x :: g) :: gs

/-- Python `hub_value.split('_')`. -/
def splitUnderscore (s : String) : List String :=
  (splitCharList '_' s.toList).map String.mk

/-- Python `f"{n:06d}"` for a natural number: decimal digits left-padded
with zeros to width 6 (wider numbers are printed in full). -/
def zeroPad6 (n : Nat) : String :=
  let s := toString n
  String.mk (List.replicate (6 - s.length) '0') ++ s

/-! ## `LocalSequenceGenerator` (`dc_sequence_manager.py`) -/

/-- The default sequence table returned by
`LocalSequenceGenerator._load_sequences` when the state file is absent. -/
def defaultSequences : List (String × Nat) :=
  [("akdcah_seq", 300), ("akdcsg_seq", 300), ("bddcah_seq", 300),
   ("bddcsg_seq", 300), ("sbdcah_seq", 300), ("sbdcsg_seq", 300)]

/-- State of a `LocalSequenceGenerator`: its in-memory `sequences` dict.
`_save_sequences` writes exactly this dict to the state file, so the
persisted file always equals this field after each call; persistence is
represented by the returned state. -/
structure LocalGen where
  sequences : List (String × Nat)
  deriving DecidableEq, Repr

/-- The state-file contents seen by `LocalSequenceGenerator._load_sequences`:
absent, present and valid JSON, or present but unparsable. -/
inductive FileState
  | absent
  | valid (m : List (String × Nat))
  | invalid
  deriving DecidableEq

/-- `LocalSequenceGenerator._load_sequences`: `open` + `json.load`, with
only `FileNotFoundError` caught (→ default table).  A present but
unparsable file raises `json.JSONDecodeError`, which propagates: the
result is `none`. -/
def localLoadSequences : FileState → Option (List (String × Nat))
  | .absent => some defaultSequences
  | .valid m => some m
  | .invalid => none

/-- `LocalSequenceGenerator.__init__`: construction succeeds exactly when
`_load_sequences` does not raise. -/
def mkLocalGen (fs : FileState) : Option LocalGen :=
  (localLoadSequences fs).map LocalGen.mk

/-- `DCSequenceManager.get_current_sequence` on a local generator:
`self.generator.sequences.get(sequence_name, 300)`. -/
def localCurrent (g : LocalGen) (k : String) : Nat :=
  (lookupA g.sequences k).getD 300

/-- `LocalSequenceGenerator.get_next_sequence`: insert the key at 300 if
absent, add 1, save, return the new value. -/
def localNext (g : LocalGen) (k : String) : Nat × LocalGen :=
  let cur := (lookupA g.sequences k).getD 300
  let next := cur + 1
  (next, ⟨setA g.sequences k next⟩)

/-- N successive `get_next_sequence` calls on the local generator,
collecting the returned values. -/
def localCalls : Nat → LocalGen → String → List Nat × LocalGen
  | 0, g, _ => ([], g)
  | n + 1, g, k =>
    let (v, g') := localNext g k
    let (vs, g'') := localCalls n g' k
    (v :: vs, g'')

/-! ## `GoogleSheetsSequenceGenerator` (`google_sheets_sequence_generator.py`) -/

/-- One data row of the `Sequences` worksheet: columns
`(Sequence Name, Current Value, Last Updated, Total Increments)`, with the
two numeric cells possibly empty (`none`) and the timestamp column not
modelled. -/
structure SheetRow where
  name : String
  value : Option Nat
  incr : Option Nat
  deriving DecidableEq, Repr

/-- The row scan of `get_next_sequence` / `get_current_sequence_value`:
first data row whose first cell equals the sequence name. -/
def sheetsFind : List SheetRow → String → Option SheetRow
  | [], _ => none
  | r :: rest, k => if r.name = k then some r else sheetsFind rest k

/-- `GoogleSheetsSequenceGenerator.get_current_sequence_value` on the
fetched rows: the matching row's value cell (`300` when the cell is
empty), or `300` when no row matches. -/
def sheetsCurrent (rows : List SheetRow) (k : String) : Nat :=
  match sheetsFind rows k with
  | some r => r.value.getD 300
  | none => 300

/-- The write phase of `GoogleSheetsSequenceGenerator.get_next_sequence`:
update the first matching row in place (bumping its `Total Increments`
cell, which restarts at 1 when empty or unparsable), or append a new row
`(k, v, now, 1)` after the last row. -/
def sheetsWrite : List SheetRow → String → Nat → List SheetRow
  | [], k, v => [⟨k, some v, some 1⟩]
  | r :: rest, k, v =>
    if r.name = k then
      ⟨r.name, some v, some ((r.incr.map (· + 1)).getD 1)⟩ :: rest
    else
      r :: sheetsWrite rest k v

/-- State of the worksheet as seen by one generator, together with the
outcome schedule for its successive write attempts (`none` = accepted,
`some ext` = the write raises and the store is left holding `ext`, the
rows committed by the interfering writer). -/
structure SheetsStore where
  rows : List SheetRow
  schedule : List (Option (List SheetRow))
  deriving DecidableEq, Repr

/-- One `worksheet.update` attempt against the store double. -/
def sheetsPut (s : SheetsStore) (rows' : List SheetRow) : Bool × SheetsStore :=
  match s.schedule with
  | [] => (true, ⟨rows', []⟩)
  | none :: rest => (true, ⟨rows', rest⟩)
  | some ext :: rest => (false, ⟨ext, rest⟩)

/-- The retry loop of `GoogleSheetsSequenceGenerator.get_next_sequence`:
each attempt re-reads the rows, recomputes `current + 1`, and writes; a
raising write consumes one retry.  `none` in the first component is the
exception propagated after the last attempt. -/
def sheetsNextLoop : Nat → SheetsStore → String → Option Nat × SheetsStore
  | 0, s, _ => (none, s)
  | n + 1, s, k =>
    let next := sheetsCurrent s.rows k + 1
    let (ok, s') := sheetsPut s (sheetsWrite s.rows k next)
    if ok then (some next, s') else sheetsNextLoop n s' k

/-- `GoogleSheetsSequenceGenerator.get_next_sequence` with its default
`retry_count = 3`. -/
def sheetsGetNext (s : SheetsStore) (k : String) : Option Nat × SheetsStore :=
  sheetsNextLoop 3 s k

/-- N successive `get_next_sequence` calls on the sheets generator;
the first failure propagates. -/
def sheetsCalls : Nat → SheetsStore → String → Option (List Nat) × SheetsStore
  | 0, s, _ => (some [], s)
  | n + 1, s, k =>
    match sheetsGetNext s k with
    | (some v, s') =>
      match sheetsCalls n s' k with
      | (some vs, s'') => (some (v :: vs), s'')
      | (none, s'') => (none, s'')
    | (none, s') => (none, s')

/-! ## `GitHubSequenceGenerator` (`github_sequence_generator.py`) -/

/-- The JSON sequence file `sequence_data.json`: the `sequences` map and
the per-key `<name>_history` lists (history entries reduced to their
`value` field; `last_updated` and the entry timestamps are not modelled). -/
structure GHContent where
  sequences : List (String × Nat)
  history : List (String × List Nat)
  deriving DecidableEq, Repr

/-- Python `lst[-10:]`. -/
def takeLast {α : Type} (n : Nat) (l : List α) : List α :=
  l.drop (l.length - n)

/-- The in-memory mutation step of `get_next_sequence`: store the new
value in `sequences` and append it to the key's history, keeping only the
last 10 entries. -/
def ghUpdate (c : GHContent) (k : String) (v : Nat) : GHContent :=
  { sequences := setA c.sequences k v,
    history := setA c.history k (takeLast 10 ((lookupA c.history k).getD [] ++ [v])) }

/-- `GitHubSequenceGenerator.get_current_sequence_value` on the fetched
content: `content['sequences'].get(name, 300)`. -/
def ghCurrentValue (c : GHContent) (k : String) : Nat :=
  (lookupA c.sequences k).getD 300

/-- State of the remote sequence file plus the outcome schedule for the
generator's successive conditional commits (`none` = accepted, `some ext`
= the commit is rejected for a stale version token and the store holds
`ext`, the content committed by the conflicting writer). -/
structure GHStore where
  content : GHContent
  schedule : List (Option GHContent)
  deriving DecidableEq, Repr

/-- One `_commit_file_to_github` attempt (a write conditioned on the
version token fetched with the content). -/
def ghCommit (s : GHStore) (c' : GHContent) : Bool × GHStore :=
  match s.schedule with
  | [] => (true, ⟨c', []⟩)
  | none :: rest => (true, ⟨c', rest⟩)
  | some ext :: rest => (false, ⟨ext, rest⟩)

/-- The retry loop of `GitHubSequenceGenerator.get_next_sequence`: each
attempt re-fetches the content (and its version token), recomputes
`current + 1`, mutates, and commits; a rejected commit consumes one
retry.  `none` is the exception propagated after the last attempt. -/
def ghNextLoop : Nat → GHStore → String → Option Nat × GHStore
  | 0, s, _ => (none, s)
  | n + 1, s, k =>
    let next := ghCurrentValue s.content k + 1
    let (ok, s') := ghCommit s (ghUpdate s.content k next)
    if ok then (some next, s') else ghNextLoop n s' k

/-- `GitHubSequenceGenerator.get_next_sequence` with its default
`retry_count = 5`. -/
def ghGetNext (s : GHStore) (k : String) : Option Nat × GHStore :=
  ghNextLoop 5 s k

/-- `GitHubSequenceGenerator.get_current_sequence_value` on the store. -/
def ghCurrent (s : GHStore) (k : String) : Nat :=
  ghCurrentValue s.content k

/-- N successive `get_next_sequence` calls on the GitHub generator; the
first failure propagates. -/
def ghCalls : Nat → GHStore → String → Option (List Nat) × GHStore
  | 0, s, _ => (some [], s)
  | n + 1, s, k =>
    match ghGetNext s k with
    | (some v, s') =>
      match ghCalls n s' k with
      | (some vs, s'') => (some (v :: vs), s'')
      | (none, s'') => (none, s'')
    | (none, s') => (none, s')

/-- The inter-retry delay of `GitHubSequenceGenerator.get_next_sequence`,
in tenths of a second: the code computes `wait_time = (attempt + 1) * 0.5`
seconds before retry number `attempt + 1`. -/
def ghWaitTenths (attempt : Nat) : Nat :=
  (attempt + 1) * 5

/-- The default `retry_count` of `GitHubSequenceGenerator.get_next_sequence`. -/
def ghRetryCount : Nat := 5

/-- The inter-retry delay of `GoogleSheetsSequenceGenerator.get_next_sequence`,
in tenths of a second: the code computes `wait_time = 0.5 * (attempt + 1)`. -/
def sheetsWaitTenths (attempt : Nat) : Nat :=
  5 * (attempt + 1)

/-! ## `DCSequenceManager` backend probing (`DCSequenceManager.__init__`) -/

/-- The backend finally held in `self.generator`. -/
inductive BackendChoice
  | sheets
  | supabase
  | localStore
  deriving DecidableEq, Repr

/-- Outcome environment for the probe chain: whether each remote
candidate's constructor succeeds and whether its
`get_current_sequence_value('akdcah_seq')` liveness test succeeds.  The
Supabase RPC backend itself lives server-side and is relevant here only
through these two outcomes. -/
structure ProbeEnv where
  sheetsConstructs : Bool
  sheetsProbes : Bool
  supabaseConstructs : Bool
  supabaseProbes : Bool
  deriving DecidableEq, Repr

/-- `DCSequenceManager.__init__`: try Google Sheets (construct, then
probe; any exception falls through), then Supabase likewise, then the
local generator. -/
def selectBackend (e : ProbeEnv) : BackendChoice :=
  if e.sheetsConstructs && e.sheetsProbes then .sheets
  else if e.supabaseConstructs && e.supabaseProbes then .supabase
  else .localStore

/-- Spec-side reformulation (§4.2 of the spec, for the refinement claim):
probe the remote candidates in the fixed order tabular store then RPC
store, select the first whose construction and liveness probe both
succeed, and fall back to the local store when both fail. -/
def firstLiveBackend (e : ProbeEnv) : BackendChoice :=
  let candidates : List (BackendChoice × Bool) :=
    [(.sheets, e.sheetsConstructs && e.sheetsProbes),
     (.supabase, e.supabaseConstructs && e.supabaseProbes)]
  ((candidates.find? (·.2)).map (·.1)).getD .localStore

/-! ## Key scheme and number formatting (`DCSequenceManager`) -/

/-- `self.company_codes`. -/
def company_codes : List (String × String) :=
  [("AMOLAKCHAND", "AK"), ("BODEGA", "BD"), ("SOURCINGBEE", "SB")]

/-- `self.facility_codes`. -/
def facility_codes : List (String × String) :=
  [("Sutlej/Gomati", "SG"), ("Arihant", "AH"), ("Vikrant", "AH"),
   ("FC-Hyderabad", "HYD"), ("Hyderabad", "HYD")]

/-- `self.company_codes.get(company_name.upper(), 'XX')`. -/
def companyCode (company_name : String) : String :=
  (lookupA company_codes (upperString company_name)).getD "XX"

/-- `self.facility_codes.get(facility_name, 'XX')`. -/
def facilityCode (facility_name : String) : String :=
  (lookupA facility_codes facility_name).getD "XX"

/-- `DCSequenceManager._extract_hub_code`: empty result for a falsy value,
otherwise the part after the last underscore, upper-cased, requiring at
least one underscore. -/
def extract_hub_code (hub_value : String) : String :=
  if hub_value = "" then ""
  else
    let parts := splitUnderscore hub_value
    if 2 ≤ parts.length then upperString (parts.getLastD "") else ""

/-- Python truthiness of the optional `hub_value` argument. -/
def hubTruthy : Option String → Bool
  | none => false
  | some h => h ≠ ""

/-- The document-number prefix chosen by `generate_dc_number` (and
identically by `reserve_dc_number`): the hub-specific prefix when the
facility maps to `HYD`, the hub value is truthy and a hub code is
extractable, the plain `{company}DC{facility}` prefix otherwise. -/
def dcPrefix (company_name facility_name : String) (hub_value : Option String) : String :=
  let cc := companyCode company_name
  let fc := facilityCode facility_name
  if fc = "HYD" ∧ hubTruthy hub_value ∧ extract_hub_code (hub_value.getD "") ≠ "" then
    cc ++ "DC" ++ fc ++ extract_hub_code (hub_value.getD "")
  else
    cc ++ "DC" ++ fc

/-- The sequence key used by `generate_dc_number` / `reserve_dc_number`:
`f"{prefix.lower()}_seq"`. -/
def buildKey (company_name facility_name : String) (hub_value : Option String) : String :=
  lowerString (dcPrefix company_name facility_name hub_value) ++ "_seq"

/-- `f"{prefix}{next_seq:06d}"`. -/
def dcFormat (pfx : String) (n : Nat) : String :=
  pfx ++ zeroPad6 n

/-! ## `DCSequenceManager` operations over an abstract backend

The manager calls `self.generator.get_next_sequence` /
`get_current_sequence` through dynamic dispatch; this is modelled by a
record of the two methods over an abstract generator state.  `next`
returns `none` in its first component when the call raises after
exhausting its retries, paired with the generator state left behind. -/

structure GenIface (σ : Type) where
  next : σ → String → Option Nat × σ
  cur : σ → String → Nat

/-- The local generator as a manager backend (never raises;
`get_current_sequence` reads the dict directly). -/
def localIface : GenIface LocalGen :=
  { next := fun g k => let (v, g') := localNext g k; (some v, g'),
    cur := localCurrent }

/-- The Google Sheets generator as a manager backend. -/
def sheetsIface : GenIface SheetsStore :=
  { next := sheetsGetNext,
    cur := fun s k => sheetsCurrent s.rows k }

/-- The GitHub generator as a manager backend. -/
def ghIface : GenIface GHStore :=
  { next := ghGetNext,
    cur := ghCurrent }

/-- `DCSequenceManager.generate_dc_number`: build the prefix and key, call
`get_next_sequence` once, and format; an exception from the backend
propagates (first component `none`). -/
def generate_dc_number {σ : Type} (I : GenIface σ) (s : σ)
    (company_name facility_name : String) (hub_value : Option String) :
    Option String × σ :=
  let pfx := dcPrefix company_name facility_name hub_value
  let r := I.next s (buildKey company_name facility_name hub_value)
  (r.1.map (fun n => dcFormat pfx n), r.2)

/-- `DCSequenceManager.reserve_dc_number`: same prefix and key derivation
and the same immediate `get_next_sequence` increment; when the backend
raises, fall back to `get_current_sequence + 1` and return that number
without persisting anything. -/
def reserve_dc_number {σ : Type} (I : GenIface σ) (s : σ)
    (company_name facility_name : String) (hub_value : Option String) :
    String × σ :=
  let pfx := dcPrefix company_name facility_name hub_value
  let key := buildKey company_name facility_name hub_value
  let r := I.next s key
  match r.1 with
  | some n => (dcFormat pfx n, r.2)
  | none => (dcFormat pfx (I.cur r.2 key + 1), r.2)

/-- Allocator state: the selected generator plus the in-memory
`reserved_numbers` bookkeeping dict (document number ↦ the reservation's
`sequence_name`). -/
structure ManagerState (σ : Type) where
  generator : σ
  reserved : List (String × String)

/-- `DCSequenceManager.__init__` bookkeeping: `self.reserved_numbers = {}`. -/
def initManager {σ : Type} (s : σ) : ManagerState σ :=
  ⟨s, []⟩

/-- Association-list deletion: Python `del d[k]` (first binding). -/
def delA {α : Type} : List (String × α) → String → List (String × α)
  | [], _ => []
  | (k', v) :: rest, k => if k' = k then rest else (k', v) :: delA rest k

/-- `DCSequenceManager.confirm_dc_number`: `False` when the number is not
in `reserved_numbers`; otherwise call `get_next_sequence` on the
reservation's key, and only on success delete the entry and return
`True`. -/
def confirm_dc_number {σ : Type} (I : GenIface σ) (m : ManagerState σ)
    (dc_number : String) : Bool × ManagerState σ :=
  match lookupA m.reserved dc_number with
  | none => (false, m)
  | some key =>
    match I.next m.generator key with
    | (some _, g') => (true, ⟨g', delA m.reserved dc_number⟩)
    | (none, g') => (false, ⟨g', m.reserved⟩)

/-- The allocator's public mutating operations. -/
inductive MgrOp
  | genOp (company_name facility_name : String) (hub_value : Option String)
  | resOp (company_name facility_name : String) (hub_value : Option String)
  | confOp (dc_number : String)

/-- Effect of one public operation on the allocator state. -/
def applyOp {σ : Type} (I : GenIface σ) (m : ManagerState σ) : MgrOp → ManagerState σ
  | .genOp c f h => ⟨(generate_dc_number I m.generator c f h).2, m.reserved⟩
  | .resOp c f h => ⟨(reserve_dc_number I m.generator c f h).2, m.reserved⟩
  | .confOp dc => (confirm_dc_number I m dc).2

/-- Effect of a sequence of public operations. -/
def runOps {σ : Type} (I : GenIface σ) (m : ManagerState σ) : List MgrOp → ManagerState σ
  | [] => m
  | op :: ops => runOps I (applyOp I m op) ops

/-! ## Helper lemmas -/

theorem lookupA_setA_self {α : Type} (m : List (String × α)) (k : String) (v : α) :
    lookupA (setA m k v) k = some v := by
  induction m with
  | nil => simp [setA, lookupA]
  | cons p rest ih =>
    obtain ⟨k', v'⟩ := p
    by_cases h : k' = k
    · simp [setA, lookupA, h]
    · simp [setA, lookupA, h, ih]

theorem localCurrent_localNext (g : LocalGen) (k : String) :
    localCurrent (localNext g k).2 k = localCurrent g k + 1 := by
  simp [localNext, localCurrent, lookupA_setA_self]

theorem sheetsCurrent_sheetsWrite (rows : List SheetRow) (k : String) (v : Nat) :
    sheetsCurrent (sheetsWrite rows k v) k = v := by
  induction rows with
  | nil => simp [sheetsWrite, sheetsCurrent, sheetsFind]
  | cons r rest ih =>
    by_cases h : r.name = k
    · simp [sheetsWrite, sheetsCurrent, sheetsFind, h]
    · simpa [sheetsWrite, sheetsCurrent, sheetsFind, h] using ih

theorem ghCurrentValue_ghUpdate (c : GHContent) (k : String) (v : Nat) :
    ghCurrentValue (ghUpdate c k v) k = v := by
  simp [ghUpdate, ghCurrentValue, lookupA_setA_self]

theorem mapRangeShift (a n : Nat) :
    (List.range (n + 1)).map (fun i => a + 1 + i)
      = (a + 1) :: (List.range n).map (fun i => a + 1 + 1 + i) := by
  rw [List.range_succ_eq_map, List.map_cons, List.map_map]
  refine congrArg _ ?_
  refine List.map_congr_left fun i _ => ?_
  show a + 1 + (i + 1) = a + 1 + 1 + i
  omega

theorem pairwiseMapRange (a n : Nat) :
    ((List.range n).map (fun i => a + 1 + i)).Pairwise (· < ·) :=
  (List.pairwise_lt_range n).map _ (fun x y h => by omega)

/-- One successful `get_next_sequence` on the sheets store with an empty
(all-accepting) schedule. -/
theorem sheetsGetNext_ok (rows : List SheetRow) (k : String) :
    sheetsGetNext ⟨rows, []⟩ k =
      (some (sheetsCurrent rows k + 1),
       ⟨sheetsWrite rows k (sheetsCurrent rows k + 1), []⟩) := rfl

/-- One successful `get_next_sequence` on the GitHub store with an empty
(all-accepting) schedule. -/
theorem ghGetNext_ok (c : GHContent) (k : String) :
    ghGetNext ⟨c, []⟩ k =
      (some (ghCurrentValue c k + 1), ⟨ghUpdate c k (ghCurrentValue c k + 1), []⟩) := rfl

theorem localCalls_spec (k : String) :
    ∀ (n : Nat) (g : LocalGen),
      (localCalls n g k).1 = (List.range n).map (fun i => localCurrent g k + 1 + i) ∧
      localCurrent (localCalls n g k).2 k = localCurrent g k + n := by
  intro n
  induction n with
  | zero => intro g; simp [localCalls]
  | succ n ih =>
    intro g
    have hstep : localCurrent (localNext g k).2 k = localCurrent g k + 1 :=
      localCurrent_localNext g k
    have hv : (localNext g k).1 = localCurrent g k + 1 := rfl
    obtain ⟨ih1, ih2⟩ := ih (localNext g k).2
    constructor
    · show (localNext g k).1 :: (localCalls n (localNext g k).2 k).1 = _
      rw [mapRangeShift, hv, ih1, hstep]
    · show localCurrent (localCalls n (localNext g k).2 k).2 k = _
      rw [ih2, hstep]; omega

theorem sheetsCalls_spec (k : String) :
    ∀ (n : Nat) (rows : List SheetRow),
      ∃ rows' : List SheetRow,
        sheetsCalls n ⟨rows, []⟩ k =
          (some ((List.range n).map (fun i => sheetsCurrent rows k + 1 + i)), ⟨rows', []⟩) ∧
        sheetsCurrent rows' k = sheetsCurrent rows k + n := by
  intro n
  induction n with
  | zero => intro rows; exact ⟨rows, by simp [sheetsCalls], by simp⟩
  | succ n ih =>
    intro rows
    set w := sheetsWrite rows k (sheetsCurrent rows k + 1) with hw
    have hcur : sheetsCurrent w k = sheetsCurrent rows k + 1 :=
      sheetsCurrent_sheetsWrite rows k (sheetsCurrent rows k + 1)
    obtain ⟨rows', h1, h2⟩ := ih w
    refine ⟨rows', ?_, by rw [h2, hcur]; omega⟩
    show (match sheetsGetNext ⟨rows, []⟩ k with
      | (some v, s') =>
        match sheetsCalls n s' k with
        | (some vs, s'') => (some (v :: vs), s'')
        | (none, s'') => (none, s'')
      | (none, s') => (none, s')) = _
    rw [sheetsGetNext_ok, ← hw]
    simp only [h1, hcur, mapRangeShift]

theorem ghCalls_spec (k : String) :
    ∀ (n : Nat) (c : GHContent),
      ∃ c' : GHContent,
        ghCalls n ⟨c, []⟩ k =
          (some ((List.range n).map (fun i => ghCurrentValue c k + 1 + i)), ⟨c', []⟩) ∧
        ghCurrentValue c' k = ghCurrentValue c k + n := by
  intro n
  induction n with
  | zero => intro c; exact ⟨c, by simp [ghCalls], by simp⟩
  | succ n ih =>
    intro c
    set w := ghUpdate c k (ghCurrentValue c k + 1) with hw
    have hcur : ghCurrentValue w k = ghCurrentValue c k + 1 :=
      ghCurrentValue_ghUpdate c k (ghCurrentValue c k + 1)
    obtain ⟨c', h1, h2⟩ := ih w
    refine ⟨c', ?_, by rw [h2, hcur]; omega⟩
    show (match ghGetNext ⟨c, []⟩ k with
      | (some v, s') =>
        match ghCalls n s' k with
        | (some vs, s'') => (some (v :: vs), s'')
        | (none, s'') => (none, s'')
      | (none, s') => (none, s')) = _
    rw [ghGetNext_ok, ← hw]
    simp only [h1, hcur, mapRangeShift]

theorem confirmEmptyAux {σ : Type} (I : GenIface σ) (m : ManagerState σ) (dc : String)
    (h : m.reserved = []) : confirm_dc_number I m dc = (false, m) := by
  simp [confirm_dc_number, h, lookupA]

theorem runOps_reserved {σ : Type} (I : GenIface σ) (ops : List MgrOp) :
    ∀ m : ManagerState σ, m.reserved = [] → (runOps I m ops).reserved = [] := by
  induction ops with
  | nil => intro m h; simpa [runOps] using h
  | cons op ops ih =>
    intro m h
    refine ih (applyOp I m op) ?_
    cases op with
    | genOp c f hub => simpa [applyOp] using h
    | resOp c f hub => simpa [applyOp] using h
    | confOp dc => simp [applyOp, confirmEmptyAux I m dc h, h]

/-! ## Claims -/

/-- C1: For every sequence key and every backend (local file store,
Google-Sheets row store, GitHub file store), under single-threaded use
(empty fault schedule), a sequence of N `get_next_sequence` calls returns
the N strictly increasing integers `cur+1, …, cur+N` with no duplicates,
and each call returns exactly the previous stored value plus 1 and leaves
that value persisted in the store before returning. -/
theorem nextValue_monotonic (k : String) (n : Nat) (g : LocalGen)
    (rows : List SheetRow) (c : GHContent) :
    ((localNext g k).1 = localCurrent g k + 1 ∧
      localCurrent (localNext g k).2 k = (localNext g k).1) ∧
    (localCalls n g k).1 = (List.range n).map (fun i => localCurrent g k + 1 + i) ∧
    (localCalls n g k).1.Pairwise (· < ·) ∧
    (localCalls n g k).1.Nodup ∧
    localCurrent (localCalls n g k).2 k = localCurrent g k + n ∧
    (sheetsGetNext ⟨rows, []⟩ k =
        (some (sheetsCurrent rows k + 1),
         ⟨sheetsWrite rows k (sheetsCurrent rows k + 1), []⟩) ∧
      sheetsCurrent (sheetsWrite rows k (sheetsCurrent rows k + 1)) k
        = sheetsCurrent rows k + 1) ∧
    (sheetsCalls n ⟨rows, []⟩ k).1
      = some ((List.range n).map (fun i => sheetsCurrent rows k + 1 + i)) ∧
    ((sheetsCalls n ⟨rows, []⟩ k).1.getD []).Pairwise (· < ·) ∧
    ((sheetsCalls n ⟨rows, []⟩ k).1.getD []).Nodup ∧
    sheetsCurrent ((sheetsCalls n ⟨rows, []⟩ k).2).rows k = sheetsCurrent rows k + n ∧
    (ghGetNext ⟨c, []⟩ k =
        (some (ghCurrentValue c k + 1), ⟨ghUpdate c k (ghCurrentValue c k + 1), []⟩) ∧
      ghCurrentValue (ghUpdate c k (ghCurrentValue c k + 1)) k = ghCurrentValue c k + 1) ∧
    (ghCalls n ⟨c, []⟩ k).1
      = some ((List.range n).map (fun i => ghCurrentValue c k + 1 + i)) ∧
    ((ghCalls n ⟨c, []⟩ k).1.getD []).Pairwise (· < ·) ∧
    ((ghCalls n ⟨c, []⟩ k).1.getD []).Nodup ∧
    ghCurrent ((ghCalls n ⟨c, []⟩ k).2) k = ghCurrentValue c k + n := by
  obtain ⟨hl1, hl2⟩ := localCalls_spec k n g
  obtain ⟨rows', hs1, hs2⟩ := sheetsCalls_spec k n rows
  obtain ⟨c', hg1, hg2⟩ := ghCalls_spec k n c
  refine ⟨⟨rfl, localCurrent_localNext g k⟩, hl1, ?_, ?_, hl2,
    ⟨sheetsGetNext_ok rows k, sheetsCurrent_sheetsWrite rows k _⟩, ?_, ?_, ?_, ?_,
    ⟨ghGetNext_ok c k, ghCurrentValue_ghUpdate c k _⟩, ?_, ?_, ?_, ?_⟩
  · rw [hl1]; exact pairwiseMapRange _ n
  · rw [hl1]; exact (pairwiseMapRange _ n).imp Nat.ne_of_lt
  · rw [hs1]
  · rw [hs1]; exact pairwiseMapRange _ n
  · rw [hs1]; exact (pairwiseMapRange _ n).imp Nat.ne_of_lt
  · rw [hs1, hs2]
  · rw [hg1]
  · rw [hg1]; exact pairwiseMapRange _ n
  · rw [hg1]; exact (pairwiseMapRange _ n).imp Nat.ne_of_lt
  · show ghCurrentValue ((ghCalls n ⟨c, []⟩ k).2).content k = _
    rw [hg1, hg2]

/-- C2: `generate_dc_number` derives the key and formats the number
deterministically from the code tables: entity AMOLAKCHAND with facility
Arihant and no hub uses key `akdcah_seq`; with facility FC-Hyderabad and
hub `HYD_NCH` it uses key `akdchydnch_seq`; and for entity BODEGA,
facility Sutlej/Gomati, with the stored counter at 300, two successive
calls return `BDDCSG000301` then `BDDCSG000302`. -/
theorem generate_key_and_format_deterministic :
    buildKey "AMOLAKCHAND" "Arihant" none = "akdcah_seq" ∧
    buildKey "AMOLAKCHAND" "FC-Hyderabad" (some "HYD_NCH") = "akdchydnch_seq" ∧
    lookupA defaultSequences "bddcsg_seq" = some 300 ∧
    (generate_dc_number localIface ⟨defaultSequences⟩ "BODEGA" "Sutlej/Gomati" none).1
      = some "BDDCSG000301" ∧
    (generate_dc_number localIface
        (generate_dc_number localIface ⟨defaultSequences⟩ "BODEGA" "Sutlej/Gomati" none).2
        "BODEGA" "Sutlej/Gomati" none).1
      = some "BDDCSG000302" := by
  refine ⟨rfl, rfl, rfl, rfl, rfl⟩

/-- C3: a key never seen by a backend reads at the floor 300, and the
first `get_next_sequence` call on it returns 301, on all three embedded
backends. -/
theorem floor_initialization (k : String) (g : LocalGen)
    (rows : List SheetRow) (c : GHContent)
    (hg : lookupA g.sequences k = none)
    (hr : sheetsFind rows k = none)
    (hc : lookupA c.sequences k = none) :
    localCurrent g k = 300 ∧ (localNext g k).1 = 301 ∧
    sheetsCurrent rows k = 300 ∧ (sheetsGetNext ⟨rows, []⟩ k).1 = some 301 ∧
    ghCurrentValue c k = 300 ∧ (ghGetNext ⟨c, []⟩ k).1 = some 301 := by
  have h1 : localCurrent g k = 300 := by simp [localCurrent, hg]
  have h2 : sheetsCurrent rows k = 300 := by simp [sheetsCurrent, hr]
  have h3 : ghCurrentValue c k = 300 := by simp [ghCurrentValue, hc]
  refine ⟨h1, ?_, h2, ?_, h3, ?_⟩
  · show localCurrent g k + 1 = 301
    rw [h1]
  · rw [sheetsGetNext_ok, h2]
  · rw [ghGetNext_ok, h3]

/-- Witness for C3 at a concrete unseen key and empty stores. -/
theorem floor_initialization_witness :
    localCurrent ⟨[]⟩ "zzdczz_seq" = 300 ∧ (localNext ⟨[]⟩ "zzdczz_seq").1 = 301 ∧
    sheetsCurrent [] "zzdczz_seq" = 300 ∧
    (sheetsGetNext ⟨[], []⟩ "zzdczz_seq").1 = some 301 ∧
    ghCurrentValue ⟨[], []⟩ "zzdczz_seq" = 300 ∧
    (ghGetNext ⟨⟨[], []⟩, []⟩ "zzdczz_seq").1 = some 301 :=
  floor_initialization "zzdczz_seq" ⟨[]⟩ [] ⟨[], []⟩ rfl rfl rfl

/-- Counterexample for C4: `LocalSequenceGenerator` construction is not
infallible — `_load_sequences` catches only `FileNotFoundError`, so a
state file that is present but unparsable makes construction raise. -/
theorem localstore_construction_can_fail :
    mkLocalGen FileState.invalid = none := rfl

/-- C4 (amended): at construction the allocator probes Google Sheets then
Supabase, each by constructing and running a `get_current_sequence_value`
liveness test, and selects the first that passes both; if both remote
candidates fail it selects the local file store, whose construction
succeeds whenever the local state file is absent or holds valid JSON. -/
theorem backend_probe_order_and_local_fallback (e : ProbeEnv) (m : List (String × Nat)) :
    selectBackend e = firstLiveBackend e ∧
    mkLocalGen FileState.absent = some ⟨defaultSequences⟩ ∧
    mkLocalGen (FileState.valid m) = some ⟨m⟩ := by
  refine ⟨?_, rfl, rfl⟩
  obtain ⟨a, b, u, v⟩ := e
  cases a <;> cases b <;> cases u <;> cases v <;> rfl

/-- C5: on a store double whose first write attempt is rejected (stale
version, the store left holding the conflicting writer's content) and
whose second attempt is accepted, `get_next_sequence` re-fetches, 
recomputes from the refreshed value, returns that value plus one, and
persists it — on both the GitHub and the Google-Sheets backends. -/
theorem nextValue_retry_recompute (k : String) (c ext : GHContent)
    (rest : List (Option GHContent)) (rows extRows : List SheetRow)
    (srest : List (Option (List SheetRow))) :
    ghGetNext ⟨c, some ext :: none :: rest⟩ k =
      (some (ghCurrentValue ext k + 1),
       ⟨ghUpdate ext k (ghCurrentValue ext k + 1), rest⟩) ∧
    ghCurrentValue (ghUpdate ext k (ghCurrentValue ext k + 1)) k
      = ghCurrentValue ext k + 1 ∧
    sheetsGetNext ⟨rows, some extRows :: none :: srest⟩ k =
      (some (sheetsCurrent extRows k + 1),
       ⟨sheetsWrite extRows k (sheetsCurrent extRows k + 1), srest⟩) ∧
    sheetsCurrent (sheetsWrite extRows k (sheetsCurrent extRows k + 1)) k
      = sheetsCurrent extRows k + 1 :=
  ⟨rfl, ghCurrentValue_ghUpdate ext k _, rfl, sheetsCurrent_sheetsWrite extRows k _⟩

/-- C6 (code evaluation at the failing input): the GitHub backend retries
a rejected write up to its default `retry_count = 5` attempts and then
raises, but the inter-retry delay `wait_time = (attempt + 1) * 0.5`
seconds (here in tenths of a second) grows linearly — 0.5s, 1.0s, 1.5s,
2.0s — not exponentially, although the code's own comment labels it
"Exponential backoff": the geometric-progression test fails at the very
first three delays. -/
theorem github_backoff_linear_not_exponential :
    ghRetryCount = 5 ∧
    (ghGetNext ⟨⟨[], []⟩, List.replicate 5 (some ⟨[], []⟩)⟩ "akdcah_seq").1 = none ∧
    (ghGetNext ⟨⟨[], []⟩, List.replicate 4 (some ⟨[], []⟩)⟩ "akdcah_seq").1 = some 301 ∧
    ghWaitTenths 0 = 5 ∧ ghWaitTenths 1 = 10 ∧
    ghWaitTenths 2 = 15 ∧ ghWaitTenths 3 = 20 ∧
    ghWaitTenths 1 * ghWaitTenths 1 ≠ ghWaitTenths 0 * ghWaitTenths 2 := by
  refine ⟨rfl, rfl, rfl, rfl, rfl, rfl, rfl, by decide⟩

/-- Counterexample for C7: a backend state on which `get_next_sequence`
fails every attempt separates the two operations — `generate_dc_number`
propagates the failure and returns no number, while `reserve_dc_number`
returns the fallback number `currentValue + 1` with nothing persisted
(the counter is still at its floor afterwards). -/
theorem reserve_differs_from_generate_on_failure :
    (generate_dc_number ghIface ⟨⟨[], []⟩, List.replicate 5 (some (⟨[], []⟩ : GHContent))⟩
        "AMOLAKCHAND" "Arihant" none).1 = none ∧
    reserve_dc_number ghIface ⟨⟨[], []⟩, List.replicate 5 (some (⟨[], []⟩ : GHContent))⟩
        "AMOLAKCHAND" "Arihant" none
      = ("AKDCAH000301", ⟨⟨[], []⟩, []⟩) ∧
    ghCurrent (reserve_dc_number ghIface ⟨⟨[], []⟩, List.replicate 5 (some (⟨[], []⟩ : GHContent))⟩
        "AMOLAKCHAND" "Arihant" none).2 "akdcah_seq" = 300 :=
  ⟨rfl, rfl, rfl⟩

/-- C7 (amended): on every backend state on which the backend's
`get_next_sequence` succeeds, `reserve_dc_number` performs the same
immediate atomic increment and returns the same formatted document number
and the same final backend state as `generate_dc_number`; when
`get_next_sequence` fails, `generate_dc_number` propagates the failure
while `reserve_dc_number` returns an unpersisted fallback number computed
as `get_current_sequence + 1`. -/
theorem reserve_equals_generate_on_success {σ : Type} (I : GenIface σ) (s : σ)
    (company_name facility_name : String) (hub_value : Option String)
    (num : String) (s' : σ)
    (h : generate_dc_number I s company_name facility_name hub_value = (some num, s')) :
    reserve_dc_number I s company_name facility_name hub_value = (num, s') := by
  unfold generate_dc_number at h
  unfold reserve_dc_number
  dsimp only at h ⊢
  cases hr : (I.next s (buildKey company_name facility_name hub_value)).1 with
  | none => rw [hr] at h; simp at h
  | some n =>
    rw [hr] at h
    simp only [Option.map_some', Prod.mk.injEq, Option.some.injEq] at h
    obtain ⟨h1, h2⟩ := h
    simp [h1, h2]

/-- Witness for C7 (amended) on the local backend at a concrete input. -/
theorem reserve_equals_generate_on_success_witness :
    reserve_dc_number localIface ⟨[]⟩ "AMOLAKCHAND" "Arihant" none
      = ("AKDCAH000301", ⟨[("akdcah_seq", 301)]⟩) :=
  reserve_equals_generate_on_success localIface ⟨[]⟩ "AMOLAKCHAND" "Arihant" none
    "AKDCAH000301" ⟨[("akdcah_seq", 301)]⟩ rfl

/-- Counterexample for C8: in an allocator state whose bookkeeping table
does hold an entry, `confirm_dc_number` does more than remove it — it
calls `get_next_sequence` and thereby increments the persisted counter
(here from 300 to 301). -/
theorem confirm_can_increment_counter :
    confirm_dc_number localIface ⟨⟨[]⟩, [("AKDCAH000301", "akdcah_seq")]⟩ "AKDCAH000301"
      = (true, ⟨⟨[("akdcah_seq", 301)]⟩, []⟩) ∧
    localCurrent ⟨[]⟩ "akdcah_seq" = 300 ∧
    localCurrent
      (confirm_dc_number localIface ⟨⟨[]⟩, [("AKDCAH000301", "akdcah_seq")]⟩
        "AKDCAH000301").2.generator "akdcah_seq" = 301 :=
  ⟨rfl, rfl, rfl⟩

/-- C8 (amended): in every allocator state whose in-memory reservation
table is empty — which covers every reachable state, since nothing ever
populates the table — `confirm_dc_number` returns `False`, performs no
backend call, and leaves the allocator state (hence every persisted
counter) unchanged, for every document number argument. -/
theorem confirm_noop_when_unreserved {σ : Type} (I : GenIface σ)
    (m : ManagerState σ) (dc_number : String) (h : m.reserved = []) :
    confirm_dc_number I m dc_number = (false, m) :=
  confirmEmptyAux I m dc_number h

/-- Witness for C8 (amended) at a concrete freshly-constructed allocator. -/
theorem confirm_noop_when_unreserved_witness :
    confirm_dc_number localIface (initManager (⟨[]⟩ : LocalGen)) "AKDCAH000301"
      = (false, initManager ⟨[]⟩) :=
  confirm_noop_when_unreserved localIface (initManager ⟨[]⟩) "AKDCAH000301" rfl

/-- C9: the `reserved_numbers` table is empty at construction and stays
empty under every sequence of public operations (`generate_dc_number` and
`reserve_dc_number` never populate it), so `confirm_dc_number` in any
reachable state returns `False` without touching the backend. -/
theorem reserved_numbers_never_populated {σ : Type} (I : GenIface σ) (s : σ)
    (ops : List MgrOp) (dc_number : String) :
    (runOps I (initManager s) ops).reserved = [] ∧
    confirm_dc_number I (runOps I (initManager s) ops) dc_number
      = (false, runOps I (initManager s) ops) := by
  have h : (runOps I (initManager s) ops).reserved = [] :=
    runOps_reserved I ops (initManager s) rfl
  exact ⟨h, confirmEmptyAux I _ dc_number h⟩

/-- C10: the 16-character bound is not enforced at call time — hub
extraction takes the whole last underscore-separated segment of the hub
value upper-cased, so a recognized company with a facility mapping to HYD
and hub value `HYD_LONGNAME` yields the 21-character document number
`AKDCHYDLONGNAME000301`. -/
theorem generate_exceeds_length_bound :
    (generate_dc_number localIface ⟨[]⟩ "AMOLAKCHAND" "FC-Hyderabad"
        (some "HYD_LONGNAME")).1 = some "AKDCHYDLONGNAME000301" ∧
    ("AKDCHYDLONGNAME000301" : String).length = 21 ∧
    16 < ("AKDCHYDLONGNAME000301" : String).length :=
  ⟨rfl, rfl, by decide⟩
